import Mathlib

/-!
Shallow embedding of the spot_rev playlist reverser (src/src/main.rs).

The program periodically rewrites a destination playlist with the tracks of
a source playlist ordered newest-added first.  Stateful network interaction
is embedded by an environment of scripted HTTP responses; every function of
the source is translated to a pure Lean function that also returns the list
of network calls it issued, in order.
-/

namespace SpotRev

/-- Track (main.rs lines 231-234): holds the resource uri. -/
structure Track where
  uri : String
deriving Repr, DecidableEq

/-- Song (main.rs lines 224-229): a playlist item with its timestamp,
local flag and track. -/
structure Song where
  added_at : String
  is_local : Bool
  track : Track
deriving Repr, DecidableEq

/-- Pagination (main.rs lines 218-222): one page of an offset-paginated
listing, with the optional next cursor. -/
structure Pagination (T : Type) where
  next : Option String
  items : List T
deriving Repr, DecidableEq

/-- AccessToken (main.rs lines 236-240). -/
structure AccessToken where
  access_token : String
  scope : String
deriving Repr, DecidableEq

/-- An HTTP response: status code, the decoded payload of the body, and the
raw body text used for error messages.  The payload is typed because every
call site of the source decodes the body into a known shape. -/
structure Response (α : Type) where
  status : Nat
  payload : α
  bodyText : String
deriving Repr

/-- The status range of the match in main.rs line 249: 200..=299. -/
def ok2xx (n : Nat) : Prop :=
  200 ≤ n ∧ n ≤ 299

instance (n : Nat) : Decidable (ok2xx n) :=
  inferInstanceAs (Decidable (200 ≤ n ∧ n ≤ 299))

/-- OkExt for Response (main.rs lines 242-253): a response is Ok exactly
when its status code matches 200..=299, otherwise it is Err carrying the
response itself. -/
def responseOk {α : Type} (r : Response α) : Except (Response α) (Response α) :=
  if ok2xx r.status then Except.ok r else Except.error r

/-- One network call issued during a run, with the data that identifies it:
the token POST, the destination reset PUT, a page GET at an offset
(limit is always 50), or an append POST with its uris.  -/
inductive Call where
  | token : Call
  | reset : Call
  | page : Nat → Call
  | append : List String → Call
deriving Repr, DecidableEq

/-- The scripted remote service: responses for the token endpoint, the
reset PUT, the page GET at each offset, and the append POST for each batch
of uris. -/
structure Env where
  tokenResp : Response AccessToken
  resetResp : Response Unit
  pageResp : Nat → Response (Pagination Song)
  appendResp : List String → Response Unit

/-- get_token (main.rs lines 188-216): POST to the token endpoint; 2xx
yields the decoded AccessToken, otherwise the error carries the body
text. -/
def get_token (env : Env) : Except String AccessToken × List Call :=
  match responseOk env.tokenResp with
  | Except.ok r => (Except.ok r.payload, [Call.token])
  | Except.error e => (Except.error ("Failed to acquire token: " ++ e.bodyText), [Call.token])

/-- reset_reversed (main.rs lines 162-185): a single PUT replacing the
destination list with the empty list. -/
def reset_reversed (env : Env) : Except String Unit × List Call :=
  match responseOk env.resetResp with
  | Except.ok _ => (Except.ok (), [Call.reset])
  | Except.error e => (Except.error ("Failed to reset reversed: " ++ e.bodyText), [Call.reset])

/-- add_songs (main.rs lines 102-122): one POST appending the given uris. -/
def add_songs (env : Env) (uris : List String) : Except String Unit × List Call :=
  match responseOk (env.appendResp uris) with
  | Except.ok _ => (Except.ok (), [Call.append uris])
  | Except.error e => (Except.error ("Failed to add song: " ++ e.bodyText), [Call.append uris])

/-- The loop of get_songs (main.rs lines 132-157): request offset, extend
the accumulator with the items of the page, continue at offset+50 while
next is present.  The source loop has no bound, so a fuel parameter cuts
off the embedding; all theorems supply enough fuel. -/
def get_songs_loop (env : Env) : Nat → Nat → List Song → Except String (List Song) × List Call
  | 0, _, _ => (Except.error "get_songs: fuel exhausted", [])
  | fuel+1, offset, acc =>
    match responseOk (env.pageResp offset) with
    | Except.error e => (Except.error ("Failed to get songs: " ++ e.bodyText), [Call.page offset])
    | Except.ok r =>
      let acc2 := acc ++ r.payload.items
      if (r.payload.next).isSome then
        let res := get_songs_loop env fuel (offset + 50) acc2
        (res.1, Call.page offset :: res.2)
      else
        (Except.ok acc2, [Call.page offset])

/-- get_songs (main.rs lines 125-160): run the pagination loop from
offset 0 with an empty accumulator. -/
def get_songs (env : Env) (fuel : Nat) : Except String (List Song) × List Call :=
  get_songs_loop env fuel 0 []

/-- The comparator of main.rs line 76: Ord::cmp on the added_at strings.
Rust compares strings by their UTF-8 bytes, and byte order on UTF-8
coincides with lexicographic order on the decoded character sequence, so
the embedding compares the character lists. -/
def addedLE (a b : Song) : Prop :=
  a.added_at.toList ≤ b.added_at.toList

instance : DecidableRel addedLE :=
  fun a b => inferInstanceAs (Decidable (a.added_at.toList ≤ b.added_at.toList))

instance : IsTrans Song addedLE :=
  ⟨fun _ _ _ hab hbc => le_trans hab hbc⟩

instance : IsTotal Song addedLE :=
  ⟨fun a b => le_total a.added_at.toList b.added_at.toList⟩

/-- The sort stage of main.rs lines 73-76: drop local songs, then stable
sort ascending by added_at.  sorted_by collects into a vector and applies
the stable ascending sort of the standard library; the embedding uses the
stable insertion sort, which computes the same sequence as any stable
ascending sort. -/
def sortedKeep (songs : List Song) : List Song :=
  (songs.filter (fun s => !s.is_local)).insertionSort addedLE

/-- The reorder pipeline of main.rs lines 73-78: filter out local songs,
stable sort ascending by added_at, project to uri, reverse. -/
def computeOrder (songs : List Song) : List String :=
  (((sortedKeep songs).map (fun s => s.track.uri))).reverse

/-- The chunking of the while-let loop of main.rs lines 80-96: consume the
uri sequence two at a time, the last batch being a singleton when the
length is odd. -/
def chunkPairs : List String → List (List String)
  | [] => []
  | [a] => [[a]]
  | a :: b :: rest => [a, b] :: chunkPairs rest

/-- The send half of the while-let loop of main.rs lines 80-96: POST each
batch in order, aborting on the first failure.  The 100 ms sleep between
batches has no observable effect in this model. -/
def add_songs_all (env : Env) : List (List String) → Except String Unit × List Call
  | [] => (Except.ok (), [])
  | batch :: rest =>
    match add_songs env batch with
    | (Except.error e, tr) => (Except.error e, tr)
    | (Except.ok _, tr) =>
      let res := add_songs_all env rest
      (res.1, tr ++ res.2)

/-- do_work (main.rs lines 39-99): acquire the token, reset the
destination, fetch the source playlist, compute the order, append in
batches.  Each failing step short-circuits with its error. -/
def do_work (env : Env) (fuel : Nat) : Except String Unit × List Call :=
  match get_token env with
  | (Except.error e, tr) => (Except.error e, tr)
  | (Except.ok _token, tr1) =>
    match reset_reversed env with
    | (Except.error e, tr) => (Except.error e, tr1 ++ tr)
    | (Except.ok _, tr2) =>
      match get_songs env fuel with
      | (Except.error e, tr) => (Except.error e, tr1 ++ tr2 ++ tr)
      | (Except.ok songs, tr3) =>
        let res := add_songs_all env (chunkPairs (computeOrder songs))
        (res.1, tr1 ++ tr2 ++ tr3 ++ res.2)

/-- The destination playlist contents after a list of calls, starting from
an arbitrary initial contents: a reset clears it, an append appends its
uris at the end, other calls leave it unchanged. -/
def destAfter (calls : List Call) (d : List String) : List String :=
  calls.foldl
    (fun d c =>
      match c with
      | Call.reset => []
      | Call.append uris => d ++ uris
      | _ => d)
    d

/-- The uris pushed to the destination by the append calls of a trace, in
issue order. -/
def pushedUris (calls : List Call) : List String :=
  (calls.filterMap
    (fun c =>
      match c with
      | Call.append uris => some uris
      | _ => none)).flatten

/-- The environment serves the given pages with 2xx statuses at
consecutive offsets 50 apart, starting at the given offset. -/
def serves (env : Env) : Nat → List (Pagination Song) → Prop
  | _, [] => True
  | offset, p :: rest =>
    (200 ≤ (env.pageResp offset).status ∧ (env.pageResp offset).status ≤ 299)
    ∧ (env.pageResp offset).payload = p
    ∧ serves env (offset + 50) rest

/-- Every page except the last carries a next cursor and the last does
not: the shape of a complete paginated listing. -/
def chained : List (Pagination Song) → Prop
  | [] => True
  | [p] => p.next = none
  | p :: q :: rest => (p.next).isSome ∧ chained (q :: rest)

/-- Result::unwrap as applied to the result of do_work in the scheduled
job closure (main.rs line 21): Ok yields the value, Err panics.  A panic
is modelled as none. -/
def unwrap_job : Except String Unit → Option Unit
  | Except.ok u => some u
  | Except.error _ => none

/-- The scheduled job closure (main.rs lines 19-23): run do_work and
unwrap its result. -/
def job_closure (env : Env) (fuel : Nat) : Option Unit :=
  unwrap_job (do_work env fuel).1

/-- Demo song added in January 2021 (value from the spec round-trip
example). -/
def sA : Song :=
  ⟨"2021-01-01T00:00:00Z", false, ⟨"spotify:A"⟩⟩

/-- Demo song added in June 2021. -/
def sB : Song :=
  ⟨"2021-06-01T00:00:00Z", false, ⟨"spotify:B"⟩⟩

/-- Demo song added in January 2020. -/
def sC : Song :=
  ⟨"2020-01-01T00:00:00Z", false, ⟨"spotify:C"⟩⟩

/-- Demo local song: excluded from the output whatever its timestamp. -/
def sL : Song :=
  ⟨"2023-01-01T00:00:00Z", true, ⟨"local:X"⟩⟩

/-- Demo song used to fill the pages of the pagination witnesses. -/
def sP : Song :=
  ⟨"2022-02-02T00:00:00Z", false, ⟨"spotify:P"⟩⟩

/-- A successful token response. -/
def tokenOk : Response AccessToken :=
  ⟨200, ⟨"tok", "scopes"⟩, ""⟩

/-- Happy-path environment: one source page holding the demo songs, every
endpoint answering 200. -/
def envRun : Env :=
  { tokenResp := tokenOk
    resetResp := ⟨200, (), ""⟩
    pageResp := fun _ => ⟨200, ⟨none, [sA, sB, sC, sL]⟩, ""⟩
    appendResp := fun _ => ⟨200, (), ""⟩ }

/-- Environment whose source playlist holds only a local song. -/
def envLocalOnly : Env :=
  { tokenResp := tokenOk
    resetResp := ⟨200, (), ""⟩
    pageResp := fun _ => ⟨200, ⟨none, [sL]⟩, ""⟩
    appendResp := fun _ => ⟨200, (), ""⟩ }

/-- Environment serving three pages of 50, 50 and 13 items, cursors on the
first two pages only. -/
def envPages : Env :=
  { tokenResp := tokenOk
    resetResp := ⟨200, (), ""⟩
    pageResp := fun offset =>
      if offset = 0 then ⟨200, ⟨some "cursor1", List.replicate 50 sP⟩, ""⟩
      else if offset = 50 then ⟨200, ⟨some "cursor2", List.replicate 50 sP⟩, ""⟩
      else ⟨200, ⟨none, List.replicate 13 sP⟩, ""⟩
    appendResp := fun _ => ⟨200, (), ""⟩ }

/-- Environment where the first page carries a cursor and the second page
request is answered 500. -/
def envPageFail : Env :=
  { tokenResp := tokenOk
    resetResp := ⟨200, (), ""⟩
    pageResp := fun offset =>
      if offset = 0 then ⟨200, ⟨some "cursor1", [sA, sB]⟩, ""⟩
      else ⟨500, ⟨none, []⟩, "server error"⟩
    appendResp := fun _ => ⟨200, (), ""⟩ }

/-- Environment where the token endpoint answers 400. -/
def envTokenFail : Env :=
  { tokenResp := ⟨400, ⟨"", ""⟩, "invalid_grant"⟩
    resetResp := ⟨200, (), ""⟩
    pageResp := fun _ => ⟨200, ⟨none, []⟩, ""⟩
    appendResp := fun _ => ⟨200, (), ""⟩ }

/-- The five-uri demo sequence of the batch-splitting example. -/
def demo5 : List String :=
  ["u1", "u2", "u3", "u4", "u5"]

/-- Demo list with a duplicated timestamp and a local entry, exercising
stability of the sort. -/
def demoDup : List Song :=
  [⟨"t", false, ⟨"u1"⟩⟩, ⟨"t", true, ⟨"u2"⟩⟩, ⟨"t", false, ⟨"u3"⟩⟩, ⟨"s", false, ⟨"u4"⟩⟩]

/-- The idle loop of main (main.rs lines 28-36) over a script of responses
of time_till_next_job: a query error propagates out through the question
mark operator, a missing duration returns the error string, a present
duration sleeps and loops.  some e means the process exits with Err e;
none means the loop is still running after the scripted responses. -/
def sched_loop : List (Except String (Option Nat)) → Option (Except String Unit)
  | [] => none
  | r :: rest =>
    match r with
    | Except.error e => some (Except.error e)
    | Except.ok none => some (Except.error "No jobs scheduled")
    | Except.ok (some _) => sched_loop rest

theorem responseOk_of_ok2xx {α : Type} {r : Response α} (h : ok2xx r.status) :
    responseOk r = Except.ok r := by
  simp [responseOk, h]

theorem responseOk_of_not_ok2xx {α : Type} {r : Response α} (h : ¬ ok2xx r.status) :
    responseOk r = Except.error r := by
  simp [responseOk, h]

theorem get_token_of_ok {env : Env} (h : ok2xx env.tokenResp.status) :
    get_token env = (Except.ok env.tokenResp.payload, [Call.token]) := by
  simp [get_token, responseOk_of_ok2xx h]

theorem reset_reversed_of_ok {env : Env} (h : ok2xx env.resetResp.status) :
    reset_reversed env = (Except.ok (), [Call.reset]) := by
  simp [reset_reversed, responseOk_of_ok2xx h]

theorem add_songs_of_ok {env : Env} {uris : List String}
    (h : ok2xx (env.appendResp uris).status) :
    add_songs env uris = (Except.ok (), [Call.append uris]) := by
  simp [add_songs, responseOk_of_ok2xx h]

theorem add_songs_all_of_ok (env : Env)
    (h : ∀ uris, ok2xx (env.appendResp uris).status) :
    ∀ bs : List (List String),
      add_songs_all env bs = (Except.ok (), bs.map Call.append)
  | [] => rfl
  | batch :: rest => by
    simp [add_songs_all, add_songs_of_ok (h batch), add_songs_all_of_ok env h rest]

theorem chunkPairs_flatten : ∀ l : List String, (chunkPairs l).flatten = l
  | [] => rfl
  | [_] => rfl
  | a :: b :: rest => by
    simp [chunkPairs, chunkPairs_flatten rest]

theorem chunkPairs_lengths :
    ∀ l : List String,
      (chunkPairs l).map List.length =
        (if l.length % 2 = 0 then List.replicate (l.length / 2) 2
         else List.replicate (l.length / 2) 2 ++ [1])
  | [] => rfl
  | [a] => by simp [chunkPairs]
  | a :: b :: rest => by
    have h := chunkPairs_lengths rest
    have h2 : (rest.length + 2) % 2 = rest.length % 2 := Nat.add_mod_right _ _
    have h3 : (rest.length + 2) / 2 = rest.length / 2 + 1 :=
      Nat.add_div_right _ (by norm_num)
    simp only [chunkPairs, List.map_cons, h, List.length_cons]
    by_cases hpar : rest.length % 2 = 0 <;>
      simp [hpar, h2, h3, List.replicate_succ]

theorem destAfter_append (t1 t2 : List Call) (d : List String) :
    destAfter (t1 ++ t2) d = destAfter t2 (destAfter t1 d) := by
  simp [destAfter, List.foldl_append]

theorem destAfter_pages (f : Nat → Nat) : ∀ (ns : List Nat) (d : List String),
    destAfter (ns.map (fun i => Call.page (f i))) d = d
  | [], _ => rfl
  | n :: ns, d => by
    simp only [List.map_cons, destAfter, List.foldl_cons]
    exact destAfter_pages f ns d

theorem destAfter_appends : ∀ (bs : List (List String)) (d : List String),
    destAfter (bs.map Call.append) d = d ++ bs.flatten
  | [], d => by simp [destAfter]
  | b :: bs, d => by
    simp only [List.map_cons, List.flatten_cons, destAfter, List.foldl_cons]
    have h := destAfter_appends bs (d ++ b)
    simp only [destAfter] at h
    rw [h, List.append_assoc]

theorem pushedUris_pages (f : Nat → Nat) (ns : List Nat) :
    pushedUris (ns.map (fun i => Call.page (f i))) = [] := by
  induction ns with
  | nil => rfl
  | cons n ns ih =>
    simp [pushedUris]

theorem pushedUris_appends (bs : List (List String)) :
    pushedUris (bs.map Call.append) = bs.flatten := by
  induction bs with
  | nil => rfl
  | cons b bs ih =>
    simpa [pushedUris] using ih

theorem pushedUris_append (t1 t2 : List Call) :
    pushedUris (t1 ++ t2) = pushedUris t1 ++ pushedUris t2 := by
  simp [pushedUris, List.filterMap_append]

theorem pageTrace_succ (offset n : Nat) :
    (List.range (n + 1)).map (fun i => Call.page (offset + 50 * i)) =
      Call.page offset :: (List.range n).map (fun i => Call.page (offset + 50 + 50 * i)) := by
  rw [List.range_succ_eq_map]
  simp only [List.map_cons, List.map_map, Nat.mul_zero, Nat.add_zero, List.cons.injEq]
  refine ⟨trivial, List.map_congr_left fun i _ => ?_⟩
  simp only [Function.comp_apply]
  congr 1
  omega

theorem get_songs_loop_of_served (env : Env) :
    ∀ (ps : List (Pagination Song)) (offset : Nat) (acc : List Song) (fuel : Nat),
      serves env offset ps → chained ps → ps ≠ [] → ps.length ≤ fuel →
      get_songs_loop env fuel offset acc =
        (Except.ok (acc ++ (ps.map Pagination.items).flatten),
         (List.range ps.length).map (fun i => Call.page (offset + 50 * i)))
  | [], _, _, _ => fun _ _ hne _ => absurd rfl hne
  | [p], offset, acc, fuel => fun hs hc _ hf => by
    obtain ⟨hok, hpay, -⟩ := hs
    have hnone : p.next = none := hc
    cases fuel with
    | zero => simp at hf
    | succ f =>
      simp [get_songs_loop, responseOk_of_ok2xx hok, hpay, hnone, List.range_succ]
  | p :: q :: rest, offset, acc, fuel => fun hs hc _ hf => by
    obtain ⟨hok, hpay, hs2⟩ := hs
    obtain ⟨hsome, hc2⟩ := hc
    cases fuel with
    | zero => simp at hf
    | succ f =>
      have ih := get_songs_loop_of_served env (q :: rest) (offset + 50) (acc ++ p.items) f
        hs2 hc2 (by simp) (by simpa using hf)
      simp only [get_songs_loop, responseOk_of_ok2xx hok, hpay, hsome, if_true, ih,
        List.length_cons, pageTrace_succ, Prod.mk.injEq]
      exact ⟨by simp, trivial⟩

theorem get_songs_of_served (env : Env) (ps : List (Pagination Song)) (fuel : Nat)
    (hs : serves env 0 ps) (hc : chained ps) (hne : ps ≠ []) (hf : ps.length ≤ fuel) :
    get_songs env fuel =
      (Except.ok ((ps.map Pagination.items).flatten),
       (List.range ps.length).map (fun i => Call.page (50 * i))) := by
  rw [get_songs, get_songs_loop_of_served env ps 0 [] fuel hs hc hne hf]
  simp

theorem get_songs_loop_of_failed_page (env : Env) :
    ∀ (ps : List (Pagination Song)) (offset : Nat) (acc : List Song) (fuel : Nat),
      serves env offset ps → (∀ p ∈ ps, (p.next).isSome) → ps.length < fuel →
      ¬ ok2xx (env.pageResp (offset + 50 * ps.length)).status →
      get_songs_loop env fuel offset acc =
        (Except.error
          ("Failed to get songs: " ++ (env.pageResp (offset + 50 * ps.length)).bodyText),
         (List.range (ps.length + 1)).map (fun i => Call.page (offset + 50 * i)))
  | [], offset, acc, fuel => fun _ _ hf hbad => by
    cases fuel with
    | zero => simp at hf
    | succ f =>
      simp only [List.length_nil, Nat.mul_zero, Nat.add_zero] at hbad
      simp [get_songs_loop, responseOk_of_not_ok2xx hbad, List.range_succ]
  | p :: rest, offset, acc, fuel => fun hs hall hf hbad => by
    obtain ⟨hok, hpay, hs2⟩ := hs
    have hsome : (p.next).isSome := hall p (List.mem_cons_self p rest)
    cases fuel with
    | zero => simp at hf
    | succ f =>
      have harith : offset + 50 + 50 * rest.length = offset + 50 * (rest.length + 1) := by ring
      have hbad2 : ¬ ok2xx (env.pageResp (offset + 50 + 50 * rest.length)).status := by
        rw [harith]
        simpa using hbad
      have ih := get_songs_loop_of_failed_page env rest (offset + 50) (acc ++ p.items) f
        hs2 (fun q hq => hall q (List.mem_cons_of_mem p hq)) (by simpa using hf) hbad2
      simp only [get_songs_loop, responseOk_of_ok2xx hok, hpay, hsome, if_true, ih,
        List.length_cons, pageTrace_succ, Prod.mk.injEq]
      exact ⟨by rw [harith], trivial⟩

theorem filter_sortedKeep_of_same_key (l : List Song) (p : Song → Bool)
    (hp : ∀ a b, p a = true → p b = true → addedLE a b) :
    (l.insertionSort addedLE).filter p = l.filter p := by
  have hpair : (l.filter p).Pairwise addedLE :=
    List.pairwise_of_forall_mem_list fun a ha b hb =>
      hp a b (List.of_mem_filter ha) (List.of_mem_filter hb)
  have hsub : List.Sublist (l.filter p) (l.insertionSort addedLE) :=
    List.sublist_insertionSort hpair (List.filter_sublist l)
  have hsub2 : List.Sublist (l.filter p) ((l.insertionSort addedLE).filter p) := by
    have h := hsub.filter p
    rwa [List.filter_filter, (by funext a; simp : (fun a => p a && p a) = p)] at h
  have hlen : ((l.insertionSort addedLE).filter p).length = (l.filter p).length :=
    ((List.perm_insertionSort addedLE l).filter p).length_eq
  exact (hsub2.eq_of_length hlen.symm).symm

theorem do_work_of_all_ok (env : Env) (ps : List (Pagination Song)) (fuel : Nat)
    (hT : ok2xx env.tokenResp.status) (hR : ok2xx env.resetResp.status)
    (hs : serves env 0 ps) (hc : chained ps) (hne : ps ≠ []) (hf : ps.length ≤ fuel)
    (hA : ∀ uris, ok2xx (env.appendResp uris).status) :
    do_work env fuel =
      (Except.ok (),
        [Call.token, Call.reset]
          ++ (List.range ps.length).map (fun i => Call.page (50 * i))
          ++ (chunkPairs (computeOrder ((ps.map Pagination.items).flatten))).map Call.append) := by
  have h1 := @get_token_of_ok env hT
  have h2 := @reset_reversed_of_ok env hR
  have h3 := get_songs_of_served env ps fuel hs hc hne hf
  have h4 := add_songs_all_of_ok env hA
    (chunkPairs (computeOrder ((ps.map Pagination.items).flatten)))
  simp [do_work, h1, h2, h3, h4]

/-- C1: in a successful run the destination is reset before any append and
the uris pushed by the append batches, in issue order, are exactly the
non-local source tracks sorted ascending by added_at and then reversed
(computeOrder); so the destination ends up holding exactly that sequence
whatever it held before. -/
theorem do_work_writes_reverse_chronological (env : Env) (ps : List (Pagination Song))
    (fuel : Nat)
    (hT : ok2xx env.tokenResp.status) (hR : ok2xx env.resetResp.status)
    (hs : serves env 0 ps) (hc : chained ps) (hne : ps ≠ []) (hf : ps.length ≤ fuel)
    (hA : ∀ uris, ok2xx (env.appendResp uris).status) :
    do_work env fuel =
      (Except.ok (),
        [Call.token, Call.reset]
          ++ (List.range ps.length).map (fun i => Call.page (50 * i))
          ++ (chunkPairs (computeOrder ((ps.map Pagination.items).flatten))).map Call.append)
    ∧ pushedUris (do_work env fuel).2 = computeOrder ((ps.map Pagination.items).flatten)
    ∧ (∀ d, destAfter (do_work env fuel).2 d
        = computeOrder ((ps.map Pagination.items).flatten)) := by
  have h := do_work_of_all_ok env ps fuel hT hR hs hc hne hf hA
  have h2 : (do_work env fuel).2 =
      [Call.token, Call.reset]
        ++ (List.range ps.length).map (fun i => Call.page (50 * i))
        ++ (chunkPairs (computeOrder ((ps.map Pagination.items).flatten))).map Call.append := by
    rw [h]
  refine ⟨h, ?_, ?_⟩
  · rw [h2]
    rw [(rfl : [Call.token, Call.reset] = [Call.token] ++ [Call.reset])]
    simp only [List.append_assoc, pushedUris_append, pushedUris_pages, pushedUris_appends,
      chunkPairs_flatten]
    simp [pushedUris]
  · intro d
    rw [h2]
    rw [(rfl : [Call.token, Call.reset] = [Call.token] ++ [Call.reset])]
    simp only [List.append_assoc, destAfter_append, destAfter_pages, destAfter_appends,
      chunkPairs_flatten]
    simp [destAfter]

/-- C1 witness: the happy-path environment with one source page holding the
three demo tracks and a local track pushes B, A, C in two batches after the
reset. -/
theorem do_work_writes_reverse_chronological_witness :
    do_work envRun 1 =
      (Except.ok (),
        [Call.token, Call.reset, Call.page 0,
         Call.append ["spotify:B", "spotify:A"], Call.append ["spotify:C"]])
    ∧ destAfter (do_work envRun 1).2 ["stale"] = ["spotify:B", "spotify:A", "spotify:C"] := by
  have h := do_work_writes_reverse_chronological envRun [⟨none, [sA, sB, sC, sL]⟩] 1
    (by decide) (by decide)
    (by refine ⟨by decide, rfl, trivial⟩)
    (by simp [chained])
    (by simp) (by simp)
    (fun _ => show ok2xx 200 by decide)
  refine ⟨?_, ?_⟩
  · rw [h.1]
    rfl
  · rw [h.2.2 ["stale"]]
    rfl

/-- C2: the reorder step never keeps a local item, keeps every non-local
item, sorts ascending by added_at, and is stable before the final
reversal: among retained items sharing one added_at value the output order
is exactly the reverse of the input order. -/
theorem compute_order_filters_and_stable_sorts (items : List Song) (k : String) :
    computeOrder items = ((sortedKeep items).reverse).map (fun s => s.track.uri)
    ∧ (∀ s ∈ sortedKeep items, s.is_local = false)
    ∧ (sortedKeep items).Perm (items.filter (fun s => !s.is_local))
    ∧ (sortedKeep items).Pairwise addedLE
    ∧ ((sortedKeep items).reverse).filter (fun s => s.added_at == k)
        = (items.filter (fun s => !s.is_local && (s.added_at == k))).reverse := by
  refine ⟨?_, ?_, ?_, ?_, ?_⟩
  · simp [computeOrder, List.map_reverse]
  · intro s hs
    rw [sortedKeep, List.mem_insertionSort] at hs
    have := List.of_mem_filter hs
    simpa using this
  · exact List.perm_insertionSort addedLE _
  · exact List.sorted_insertionSort addedLE _
  · have hp : ∀ a b : Song, (a.added_at == k) = true → (b.added_at == k) = true →
        addedLE a b := by
      intro a b ha hb
      have ha2 : a.added_at = k := by simpa using ha
      have hb2 : b.added_at = k := by simpa using hb
      simp [addedLE, ha2, hb2]
    rw [List.filter_reverse, sortedKeep,
      filter_sortedKeep_of_same_key _ _ hp, List.filter_filter]
    congr 1
    apply List.filter_congr
    intro a _
    exact Bool.and_comm _ _

/-- C2 witness: on the demo list with a duplicated timestamp, the two
retained items stamped t appear in the output in the reverse of their
input order and the local item is gone. -/
theorem compute_order_filters_and_stable_sorts_witness :
    ((sortedKeep demoDup).reverse).filter (fun s => s.added_at == "t")
        = [⟨"t", false, ⟨"u3"⟩⟩, ⟨"t", false, ⟨"u1"⟩⟩]
    ∧ computeOrder demoDup = ["u3", "u1", "u4"] := by
  have h := compute_order_filters_and_stable_sorts demoDup "t"
  refine ⟨?_, ?_⟩
  · rw [h.2.2.2.2]
    rfl
  · rw [h.1]
    rfl

/-- C3: the reader pages at offsets 0, 50, 100 and so on, appending the
items of every page, and stops exactly after the first page without a next
cursor; the result is the concatenation of all pages in order. -/
theorem get_songs_accumulates_pages (env : Env) (ps : List (Pagination Song)) (fuel : Nat)
    (hs : serves env 0 ps) (hc : chained ps) (hne : ps ≠ []) (hf : ps.length ≤ fuel) :
    get_songs env fuel =
      (Except.ok ((ps.map Pagination.items).flatten),
       (List.range ps.length).map (fun i => Call.page (50 * i))) :=
  get_songs_of_served env ps fuel hs hc hne hf

/-- C3 witness: pages of 50, 50 and 13 items with cursors on the first two
yield exactly 113 items, requested at offsets 0, 50, 100. -/
theorem get_songs_accumulates_pages_witness :
    get_songs envPages 3 =
      (Except.ok (List.replicate 113 sP), [Call.page 0, Call.page 50, Call.page 100])
    ∧ (List.replicate 113 sP).length = 113 := by
  have h := get_songs_accumulates_pages envPages
    [⟨some "cursor1", List.replicate 50 sP⟩, ⟨some "cursor2", List.replicate 50 sP⟩,
     ⟨none, List.replicate 13 sP⟩] 3
    (by refine ⟨by decide, rfl, by decide, rfl, by decide, rfl, trivial⟩)
    (by simp [chained]) (by simp) (by simp)
  refine ⟨?_, rfl⟩
  rw [h]
  rfl

/-- C4: the writer chunks the uri sequence into batches whose
concatenation is the input, every batch having length two except a final
singleton exactly when the input length is odd, and posts them strictly in
order, one call per batch. -/
theorem append_batches_of_at_most_two (l : List String) :
    (chunkPairs l).flatten = l
    ∧ (chunkPairs l).map List.length =
        (if l.length % 2 = 0 then List.replicate (l.length / 2) 2
         else List.replicate (l.length / 2) 2 ++ [1])
    ∧ (∀ env : Env, (∀ uris, ok2xx (env.appendResp uris).status) →
        add_songs_all env (chunkPairs l) = (Except.ok (), (chunkPairs l).map Call.append)) :=
  ⟨chunkPairs_flatten l, chunkPairs_lengths l,
    fun env h => add_songs_all_of_ok env h (chunkPairs l)⟩

/-- C4 witness: five uris split into batches of sizes 2, 2, 1 and are sent
as three sequential append calls in that order. -/
theorem append_batches_of_at_most_two_witness :
    (chunkPairs demo5).map List.length = [2, 2, 1]
    ∧ add_songs_all envRun (chunkPairs demo5) =
        (Except.ok (),
         [Call.append ["u1", "u2"], Call.append ["u3", "u4"], Call.append ["u5"]]) := by
  have h := append_batches_of_at_most_two demo5
  refine ⟨?_, ?_⟩
  · rw [h.2.1]
    rfl
  · rw [h.2.2 envRun (fun _ => show ok2xx 200 by decide)]
    rfl

/-- C5 evidence: the scheduled job closure of main.rs line 21 applies
unwrap to the run result, so on a failing run it panics instead of logging
and discarding the error.  At the environment whose token endpoint answers
400 the run fails and the closure panics (modelled as none); a successful
result is merely unwrapped. -/
theorem job_closure_panics_on_run_failure :
    (do_work envTokenFail 1).1 = Except.error "Failed to acquire token: invalid_grant"
    ∧ job_closure envTokenFail 1 = none
    ∧ unwrap_job (Except.ok ()) = some () :=
  ⟨rfl, rfl, rfl⟩

/-- C6: when the token exchange answers outside 2xx the run stops with the
token error and the trace contains no reset, page or append call. -/
theorem token_failure_prevents_later_calls (env : Env) (fuel : Nat)
    (h : ¬ ok2xx env.tokenResp.status) :
    (do_work env fuel).1
      = Except.error ("Failed to acquire token: " ++ env.tokenResp.bodyText)
    ∧ Call.reset ∉ (do_work env fuel).2
    ∧ (∀ n, Call.page n ∉ (do_work env fuel).2)
    ∧ (∀ uris, Call.append uris ∉ (do_work env fuel).2) := by
  have h1 : get_token env =
      (Except.error ("Failed to acquire token: " ++ env.tokenResp.bodyText), [Call.token]) := by
    simp [get_token, responseOk_of_not_ok2xx h]
  have h2 : do_work env fuel =
      (Except.error ("Failed to acquire token: " ++ env.tokenResp.bodyText), [Call.token]) := by
    simp [do_work, h1]
  rw [h2]
  exact ⟨rfl, by simp, fun n => by simp, fun uris => by simp⟩

/-- C6 witness: with the token endpoint answering 400 the run issues only
the token call. -/
theorem token_failure_prevents_later_calls_witness :
    (do_work envTokenFail 1).1 = Except.error "Failed to acquire token: invalid_grant"
    ∧ Call.reset ∉ (do_work envTokenFail 1).2 := by
  have h := token_failure_prevents_later_calls envTokenFail 1 (by decide)
  exact ⟨by rw [h.1]; rfl, h.2.1⟩

/-- C7: a page request answered outside 2xx makes the reader fail with the
response body text in the error; the items of every earlier page are
dropped, no list is returned. -/
theorem page_failure_returns_error_not_partial (env : Env) (ps : List (Pagination Song))
    (fuel : Nat)
    (hs : serves env 0 ps) (hall : ∀ p ∈ ps, (p.next).isSome)
    (hf : ps.length < fuel) (hbad : ¬ ok2xx (env.pageResp (50 * ps.length)).status) :
    get_songs env fuel =
      (Except.error ("Failed to get songs: " ++ (env.pageResp (50 * ps.length)).bodyText),
       (List.range (ps.length + 1)).map (fun i => Call.page (50 * i)))
    ∧ (∀ songs, (get_songs env fuel).1 ≠ Except.ok songs) := by
  have h := get_songs_loop_of_failed_page env ps 0 [] fuel hs hall hf (by simpa using hbad)
  have h2 : get_songs env fuel =
      (Except.error ("Failed to get songs: " ++ (env.pageResp (50 * ps.length)).bodyText),
       (List.range (ps.length + 1)).map (fun i => Call.page (50 * i))) := by
    rw [get_songs, h]
    simp
  refine ⟨h2, fun songs hcon => ?_⟩
  rw [h2] at hcon
  simp at hcon

/-- C7 witness: first page fine and carrying a cursor, second answered 500
with body text server error; the reader returns that error and no items. -/
theorem page_failure_returns_error_not_partial_witness :
    get_songs envPageFail 5 =
      (Except.error "Failed to get songs: server error", [Call.page 0, Call.page 50]) := by
  have h := page_failure_returns_error_not_partial envPageFail
    [⟨some "cursor1", [sA, sB]⟩] 5
    (by refine ⟨by decide, rfl, trivial⟩)
    (by simp)
    (by simp)
    (by decide)
  rw [h.1]
  rfl

/-- C8: the response classifier returns Ok exactly on status codes from
200 to 299 and Err on every other status. -/
theorem http_status_classified_2xx (α : Type) (r : Response α) :
    ((responseOk r).isOk = decide (200 ≤ r.status ∧ r.status ≤ 299))
    ∧ (if ok2xx r.status then responseOk r = Except.ok r
       else responseOk r = Except.error r) := by
  by_cases h : ok2xx r.status
  · have h2 : 200 ≤ r.status ∧ r.status ≤ 299 := h
    rw [responseOk_of_ok2xx h, if_pos h]
    exact ⟨by simp [Except.isOk, Except.toBool, h2], rfl⟩
  · have h2 : ¬ (200 ≤ r.status ∧ r.status ≤ 299) := h
    rw [responseOk_of_not_ok2xx h, if_neg h]
    exact ⟨by simp [Except.isOk, Except.toBool, h2], rfl⟩

/-- C9 counterexample: the idle loop also exits when the query for the
time until the next job itself fails, so the no-upcoming-job report is not
the only exit condition. -/
theorem sched_loop_exits_on_query_error :
    sched_loop [Except.error "scheduler failure"] = some (Except.error "scheduler failure")
    ∧ some (Except.error "scheduler failure")
        ≠ (some (Except.error "No jobs scheduled") : Option (Except String Unit)) := by
  exact ⟨rfl, by simp⟩

/-- C9 amended: as long as the scheduler keeps reporting a duration the
loop keeps sleeping; when it reports no upcoming job the loop exits with
the error No jobs scheduled; and when the query fails the loop exits with
that failure. -/
theorem sched_loop_exit_behavior (pre rest : List (Except String (Option Nat)))
    (hpre : ∀ r ∈ pre, ∃ d, r = Except.ok (some d)) :
    sched_loop pre = none
    ∧ sched_loop (pre ++ Except.ok none :: rest) = some (Except.error "No jobs scheduled")
    ∧ (∀ e, sched_loop (pre ++ Except.error e :: rest) = some (Except.error e)) := by
  induction pre with
  | nil => exact ⟨rfl, rfl, fun e => rfl⟩
  | cons r pre ih =>
    obtain ⟨d, rfl⟩ := hpre r (List.mem_cons_self r pre)
    have ih2 := ih (fun x hx => hpre x (List.mem_cons_of_mem _ hx))
    simpa [sched_loop] using ih2

/-- C9 amended witness: one tick with a duration then a no-upcoming-job
report exits with the No jobs scheduled error. -/
theorem sched_loop_exit_behavior_witness :
    sched_loop [Except.ok (some 60), Except.ok none]
      = some (Except.error "No jobs scheduled") := by
  have h := sched_loop_exit_behavior [Except.ok (some 60)] []
    (fun r hr => by
      simp at hr
      exact ⟨60, hr⟩)
  simpa using h.2.1

/-- C10: when the source pages hold no non-local track, the successful run
is the token call, the reset and the page reads with no append at all, and
the destination ends empty whatever it held. -/
theorem empty_source_resets_and_appends_nothing (env : Env)
    (ps : List (Pagination Song)) (fuel : Nat)
    (hT : ok2xx env.tokenResp.status) (hR : ok2xx env.resetResp.status)
    (hs : serves env 0 ps) (hc : chained ps) (hne : ps ≠ []) (hf : ps.length ≤ fuel)
    (hA : ∀ uris, ok2xx (env.appendResp uris).status)
    (hnone : ((ps.map Pagination.items).flatten).filter (fun s => !s.is_local) = []) :
    do_work env fuel =
      (Except.ok (),
        [Call.token, Call.reset]
          ++ (List.range ps.length).map (fun i => Call.page (50 * i)))
    ∧ (∀ uris, Call.append uris ∉ (do_work env fuel).2)
    ∧ (∀ d, destAfter (do_work env fuel).2 d = []) := by
  have hco : computeOrder ((ps.map Pagination.items).flatten) = [] := by
    simp [computeOrder, sortedKeep, hnone]
  have h := do_work_of_all_ok env ps fuel hT hR hs hc hne hf hA
  rw [hco] at h
  simp only [chunkPairs, List.map_nil, List.append_nil] at h
  have h2 : (do_work env fuel).2 =
      [Call.token, Call.reset]
        ++ (List.range ps.length).map (fun i => Call.page (50 * i)) := by
    rw [h]
  refine ⟨h, fun uris => ?_, fun d => ?_⟩
  · rw [h2]
    simp
  · rw [h2]
    rw [(rfl : [Call.token, Call.reset] = [Call.token] ++ [Call.reset])]
    simp only [List.append_assoc, destAfter_append, destAfter_pages]
    simp [destAfter]

/-- C10 witness: a single page holding only a local track yields a run
with no append call and an empty destination. -/
theorem empty_source_resets_and_appends_nothing_witness :
    do_work envLocalOnly 1 = (Except.ok (), [Call.token, Call.reset, Call.page 0])
    ∧ destAfter (do_work envLocalOnly 1).2 ["stale"] = [] := by
  have h := empty_source_resets_and_appends_nothing envLocalOnly [⟨none, [sL]⟩] 1
    (by decide) (by decide)
    (by refine ⟨by decide, rfl, trivial⟩)
    (by simp [chained])
    (by simp) (by simp)
    (fun _ => show ok2xx 200 by decide)
    (by decide)
  refine ⟨?_, h.2.2 ["stale"]⟩
  rw [h.1]
  rfl

end SpotRev
